import Mathlib

set_option autoImplicit false

/-!
Shallow embedding of `src/transformations/statements/transformClassDeclaration.ts`
(the class-metadata synthesizer, annotation configuration builder, inheritance
diff engine and constructor/field lifecycle rewriter of the transformer).

The TypeScript compiler API (`ts.TypeChecker`, symbol resolution, the node
factory `f`) is an external collaborator of the code under verification; it is
modelled by explicit data: semantic types `Ty` returned by checker queries,
expression values `Expr`, statements `Stmt`, and an `Env` record holding the
external query functions (`isTypeAssignableTo`, `getProperties`,
`getTypeOfPropertyOfType`, `getUid`, `getPrettyName`, `getUniversalTypeNode`).
`ts.Type` object identity (the `===` comparison in `calculateOmittedGuards`)
is modelled as equality of the `Ty` values returned by the checker, and
`Diagnostics.error` (which throws) is modelled with `Except String`.
-/

namespace FlameworkTransform

/-- A semantic type as handed back by the external type-checker service.
`prim` is a primitive (by type tag), `lit` a literal type, `named` a
named/declared type.  Equality of `Ty` values models reference identity of
interned `ts.Type` objects. -/
inductive Ty where
  | prim : String → Ty
  | lit : String → Ty
  | named : String → Ty
  deriving DecidableEq

/-- A type node as written in (or synthesized into) the program text:
either a checker type rendered as a node, a union with `undefined`
(for optional properties), or the synthesized tuple type over the
constructor parameters' declared type nodes. -/
inductive TypeNode where
  | ofTy : Ty → TypeNode
  | unionUndef : TypeNode → TypeNode
  | tupleOf : List (Option TypeNode) → TypeNode

/-- A TypeScript expression, restricted to the shapes this transformation
builds or inspects.  `raw` is an opaque author expression with no
symbol-bearing descendants; `ref` is a node whose symbol resolves to a class
member of the given name; `composite` is an arbitrary composite author
expression modelled by the ordered list of member symbols that
`ts.forEachChildRecursively` finds among its descendants; `guard` is the
output of the external `buildGuardFromType` for the given type;
`inferCall` is the type-inference escape hatch
`f.call(inferExpression, [f.arrowFunction(init)])`. -/
inductive Expr where
  | raw : Nat → Expr
  | str : String → Expr
  | boolE : Bool → Expr
  | strs : List String → Expr
  | arr : List Expr → Expr
  | obj : List (String × Expr) → Expr
  | guard : Ty → Expr
  | trueGuard : Expr
  | ref : String → Expr
  | composite : List String → Expr
  | inferCall : Expr → Expr

/-- The ordered list of class-member symbols referenced inside an
initializer expression, as visited by `ts.forEachChildRecursively`
(composite initializers carry their descendant symbol list directly). -/
def Expr.refs : Expr → List String
  | .ref s => [s]
  | .composite ss => ss
  | .inferCall e => e.refs
  | _ => []

/-- The property names of an object-literal expression (empty for
non-object expressions). -/
def Expr.objKeys : Expr → List String
  | .obj ps => ps.map Prod.fst
  | _ => []

/-- A TypeScript statement, restricted to the shapes the lifecycle rewriter
builds or moves around.  `superStmt` is an expression statement whose
expression is a `super(...)` call; `assignCtorParams` is
`this.constructor_parameters = [params...]`; `varDestructure` is
`const [names...] = this.constructor_parameters`; `varPatternInit` is the
re-binding of a non-identifier parameter pattern from its temporary name. -/
inductive Stmt where
  | superStmt : List Expr → Stmt
  | exprStmt : Expr → Stmt
  | assignThisField : String → Expr → Stmt
  | assignCtorParams : List String → Stmt
  | varDestructure : List String → Stmt
  | varPatternInit : Nat → String → Stmt
  | block : List Stmt → Stmt

/-- Whether a statement is a `super(...)` call statement (the shape the
rewriter hoists to the front of the rewritten constructor). -/
def Stmt.isSuperStmt : Stmt → Bool
  | .superStmt _ => true
  | _ => false

/-- A property declaration member.  `nameHasText` models the
`"text" in x.name` check (false for computed names); `nameSymbol` is
`state.getSymbol(member.name)`; `typeAt` is
`typeChecker.getTypeAtLocation(x.name)`; `exclam` records the definite
assignment token added by the rewrite. -/
structure PropDecl where
  name : String
  nameHasText : Bool
  nameSymbol : Option String
  initializer : Option Expr
  typeNode : Option TypeNode
  questionToken : Bool
  exclam : Bool
  typeAt : Option Ty

/-- A method declaration member (`hasBody` is false for bodyless
declarations, for which the lifecycle rewrite is skipped). -/
structure MethodDecl where
  name : String
  hasBody : Bool
  body : List Stmt

/-- A constructor parameter.  `isReferenceType` is
`f.is.referenceType(param.type)`; `declUid` is the UID of the declaration the
parameter's type name resolves to (`none` when the symbol or declaration is
missing); `nameIdent` is `some s` when the binding name is a plain
identifier, `none` for a binding pattern (identified opaquely by
`patternId`). -/
structure CtorParam where
  isReferenceType : Bool
  declUid : Option String
  nameIdent : Option String
  patternId : Nat
  typeNode : Option TypeNode

/-- A constructor declaration member. -/
structure CtorDecl where
  params : List CtorParam
  body : List Stmt

/-- A class member. `other` covers member kinds this transformation only
inspects by name (accessors and so on). -/
inductive ClassElement where
  | prop : PropDecl → ClassElement
  | method : MethodDecl → ClassElement
  | ctor : CtorDecl → ClassElement
  | other : Option String → ClassElement

/-- The `x.name && "text" in x.name ? x.name.text : undefined` view of a
member used by the `onStart` searches. -/
def ClassElement.nameText : ClassElement → Option String
  | .prop p => if p.nameHasText then some p.name else none
  | .method m => some m.name
  | .ctor _ => none
  | .other n => n

/-- The `f.is.constructor` view of a member, paired with its payload. -/
def ClassElement.ctorData : ClassElement → Option CtorDecl
  | .ctor c => some c
  | _ => none

/-- One type listed in a heritage clause: whether its expression is a plain
identifier, and the UID of the declaration that identifier resolves to. -/
structure HeritageType where
  isIdentifier : Bool
  declUid : Option String

/-- One heritage clause (`implements ...` or `extends ...`). -/
structure HeritageClause where
  isImplements : Bool
  types : List HeritageType

/-- A property symbol on a checker type together with the symbol's parent
(compared against the `BaseComponent` symbol) and the type
`getTypeOfSymbolAtLocation` yields for it.  That checker call always
returns a type, so the source's defensive `if (!instanceType)` checks are
vacuous and the type is total here. -/
structure PropSym where
  parent : String
  ty : Ty

/-- The checker facts about one superclass in `getSuperClasses` order:
its type's `instance` and `attributes` properties, when present. -/
structure SuperClassModel where
  instanceProperty : Option PropSym
  attributesProperty : Option PropSym

/-- A class declaration together with the checker facts the transformation
queries about it.  `hasSymbol` and `name` gate processing;
`instanceProperty` / `attributesProperty` are `getProperty` results on the
class's own type; `superClasses` is `getSuperClasses(typeChecker, node)`. -/
structure ClassDecl where
  hasSymbol : Bool
  name : Option String
  members : List ClassElement
  heritageClauses : Option (List HeritageClause)
  instanceProperty : Option PropSym
  attributesProperty : Option PropSym
  superClasses : List SuperClassModel

/-- One decorator as recorded in `ClassInfo`: `isWithNodes` is
`x.type === "WithNodes"` (expression arguments preserved), `declUid` is
`state.getUid(decorator.declaration)`. -/
structure DecoratorInfo where
  name : String
  isFlameworkDecorator : Bool
  isWithNodes : Bool
  declUid : String
  arguments : List Expr

/-- The per-class facts computed by the external symbol-resolution pass. -/
structure ClassInfo where
  isExternal : Bool
  decorators : List DecoratorInfo

/-- The external services used by the transformation: `classUid` is
`state.getUid(node)` for the class being processed, `onStartInterfaceUid`
the UID of the `OnStart` declaration in the flamework symbol file,
`prettyName` / `universalTypeNode` the corresponding util functions, and the
remaining fields the type-checker query surface. -/
structure Env where
  classUid : String
  onStartInterfaceUid : String
  prettyName : Option TypeNode → String
  universalTypeNode : Ty → Option TypeNode
  assignable : Ty → Ty → Bool
  properties : Ty → List String
  typeOfProperty : Ty → String → Option Ty

/-- Modelled from the spec: `buildGuardFromType` (the type-to-validator
compiler, external to the file under analysis) compiles a checker type into
a validator expression; its output is opaque to this transformation and is
represented by the `Expr.guard` node tagged with the compiled type. -/
def buildGuardFromType (t : Ty) : Expr :=
  Expr.guard t

/-- Modelled from the spec: `buildGuardsFromType` (plural form of the
type-to-validator compiler) returns one `(fieldName, guard)` property per
named field of an object-shaped type, in field order, degrading to an
always-true validator when a field's type cannot be resolved. -/
def buildGuardsFromType (env : Env) (t : Ty) : List (String × Expr) :=
  (env.properties t).map (fun name =>
    (name,
      match env.typeOfProperty t name with
      | some ft => Expr.guard ft
      | none => Expr.trueGuard))

/-- The first phase of `calculateOmittedGuards`: the names the author
supplied explicitly inside the custom `attributes` object literal (empty
unless the found element is a property assignment whose initializer is an
object literal). -/
def customAttributeNames : Option (String × Expr) → List String
  | some p =>
    match p.2 with
    | Expr.obj props => props.map Prod.fst
    | _ => []
  | none => []

/-- Embedding of `calculateOmittedGuards` (transformClassDeclaration.ts):
starts from the author-supplied attribute names, then—when the class type
has an `attributes` property, a first superclass exists and its type also
has an `attributes` property—adds every field name of the superclass's
attributes type whose type is present on both sides and identical
(`superProp === prop`, modelled as equality of the checker-returned types).
The returned list is used only through membership, mirroring the source's
`Set<string>`. -/
def calculateOmittedGuards (env : Env) (cls : ClassDecl)
    (customAttributes : Option (String × Expr)) : List String :=
  let omittedNames := customAttributeNames customAttributes
  match cls.attributesProperty with
  | none => omittedNames
  | some property =>
    match cls.superClasses.head? with
    | none => omittedNames
    | some superClass =>
      match superClass.attributesProperty with
      | none => omittedNames
      | some superProperty =>
        omittedNames ++ (env.properties superProperty.ty).filter (fun name =>
          match env.typeOfProperty property.ty name,
                env.typeOfProperty superProperty.ty name with
          | some prop, some superProp => superProp == prop
          | _, _ => false)

/-- The `attributeGuards.filter((x) => !omittedGuards.has(x.name.text))`
step of `updateAttributeGuards`: the generated per-field guards that
survive the omission set. -/
def filteredAttributeGuards (env : Env) (cls : ClassDecl) (attributesType : Ty)
    (customAttributes : Option (String × Expr)) : List (String × Expr) :=
  (buildGuardsFromType env attributesType).filter
    (fun g => !(calculateOmittedGuards env cls customAttributes).contains g.1)

/-- The `properties.filter((x) => x !== attributes)` step: removes the
one element `find` located (the first property named `attributes`), if
any. -/
def eraseFirstAttributesProp : List (String × Expr) → List (String × Expr)
  | [] => []
  | p :: rest =>
    if p.1 == "attributes" then rest else p :: eraseFirstAttributesProp rest

/-- Embedding of `updateAttributeGuards`: when the class type's
`attributes` property exists and belongs to `BaseComponent`, replaces or
creates the config's `attributes` property with the surviving generated
guards appended after any author-supplied entries; otherwise returns
`none` (the source's bare `return`, absorbed by `??` in the caller). -/
def updateAttributeGuards (env : Env) (cls : ClassDecl)
    (properties : List (String × Expr)) : Option (List (String × Expr)) :=
  match cls.attributesProperty with
  | none => none
  | some property =>
    if property.parent != "BaseComponent" then none
    else
      let attributes := properties.find? (fun p => p.1 == "attributes")
      let filteredGuards := filteredAttributeGuards env cls property.ty attributes
      let properties := eraseFirstAttributesProp properties
      match attributes with
      | some (n, Expr.obj ps) => some (properties ++ [(n, Expr.obj (ps ++ filteredGuards))])
      | _ => some (properties ++ [("attributes", Expr.obj filteredGuards)])

/-- Embedding of `updateInstanceGuard`: when the class type's `instance`
property exists and belongs to `BaseComponent`, a first superclass exists,
the author supplied no `instanceGuard`, and the superclass type has an
`instance` property, appends a compiled guard for the subclass's instance
type unless the superclass's instance type is assignable to it
(`isTypeAssignableTo(superInstanceType, instanceType)`); earlier bare
`return`s are `none`. -/
def updateInstanceGuard (env : Env) (cls : ClassDecl)
    (properties : List (String × Expr)) : Option (List (String × Expr)) :=
  match cls.instanceProperty with
  | none => none
  | some property =>
    if property.parent != "BaseComponent" then none
    else
      match cls.superClasses.head? with
      | none => none
      | some superClass =>
        if (properties.find? (fun p => p.1 == "instanceGuard")).isSome then none
        else
          match superClass.instanceProperty with
          | none => none
          | some superProperty =>
            if !(env.assignable superProperty.ty property.ty) then
              some (properties ++ [("instanceGuard", buildGuardFromType property.ty)])
            else
              some properties

/-- Embedding of `updateComponentConfig`: the two `?? properties`
fallbacks around the attribute and instance-guard updates. -/
def updateComponentConfig (env : Env) (cls : ClassDecl)
    (properties : List (String × Expr)) : List (String × Expr) :=
  let properties := (updateAttributeGuards env cls properties).getD properties
  (updateInstanceGuard env cls properties).getD properties

/-- Embedding of `generateFlameworkConfig`: runs the component config
update for `Component` decorators and prepends the `type` discriminator
property to the final object literal. -/
def generateFlameworkConfig (env : Env) (cls : ClassDecl) (dec : DecoratorInfo)
    (config : List (String × Expr)) : Expr :=
  let properties := if dec.name == "Component" then updateComponentConfig env cls config else config
  Expr.obj (("type", Expr.str dec.name) :: properties)

/-- The `f.is.object(decorator.arguments[0]) ? decorator.arguments[0] :
f.object([])` selection of the author-supplied configuration object. -/
def firstArgObject (args : List Expr) : List (String × Expr) :=
  match args.head? with
  | some (Expr.obj ps) => ps
  | _ => []

/-- The per-decorator configuration record: `generateFlameworkConfig` for
recognized (flamework) decorators, and the verbatim
`f.object({ type: "Arbitrary", arguments: decorator.arguments })` wrapper
for all others. -/
def decoratorConfig (env : Env) (cls : ClassDecl) (dec : DecoratorInfo) : Expr :=
  if dec.isFlameworkDecorator then
    generateFlameworkConfig env cls dec (firstArgObject dec.arguments)
  else
    Expr.obj [("type", Expr.str "Arbitrary"), ("arguments", Expr.arr dec.arguments)]

/-- Insertion-ordered map update with JavaScript `Map.prototype.set`
semantics: an existing key keeps its position and gets the new value, a new
key is appended. -/
def mapSet (m : List (String × Expr)) (k : String) (v : Expr) : List (String × Expr) :=
  if m.any (fun p => p.1 == k) then
    m.map (fun p => if p.1 == k then (k, v) else p)
  else
    m ++ [(k, v)]

/-- The `for (const param of constructor.parameters)` loop collecting
`constructorDependencies`: a parameter whose declared type is not a type
reference, or whose type name has no resolvable declaration, throws the
corresponding diagnostic; otherwise the declaration's UID is collected in
parameter order. -/
def collectDependencies : List CtorParam → Except String (List String)
  | [] => .ok []
  | p :: rest =>
    if !p.isReferenceType then .error "Expected type reference"
    else
      match p.declUid with
      | none => .error "Could not find declaration"
      | some uid =>
        match collectDependencies rest with
        | .error e => .error e
        | .ok uids => .ok (uid :: uids)

/-- The constructor-dependency block of `transformClassDeclaration`: finds
the first constructor, resolves every parameter, and emits the
`flamework:dependencies` record only when the parameter list is
non-empty. -/
def dependencyFields (cls : ClassDecl) : Except String (List (String × Expr)) :=
  match cls.members.findSome? ClassElement.ctorData with
  | none => .ok []
  | some c =>
    match collectDependencies c.params with
    | .error e => .error e
    | .ok deps =>
      .ok (if c.params.length > 0 then [("flamework:dependencies", Expr.strs deps)] else [])

/-- The heritage-clause walk of `transformClassDeclaration`: for every
`implements` clause entry whose expression is a plain identifier with a
resolvable declaration, collects that declaration's UID in order. -/
def collectImplements (clauses : List HeritageClause) : List String :=
  clauses.flatMap (fun clause =>
    if !clause.isImplements then []
    else clause.types.filterMap (fun t => if !t.isIdentifier then none else t.declUid))

/-- Whether the decorator list carries the recognized component-kind
annotation (`x.isFlameworkDecorator && x.name === "Component"`). -/
def componentDecoratorPresent (decorators : List DecoratorInfo) : Bool :=
  decorators.any (fun d => d.isFlameworkDecorator && d.name == "Component")

/-- The `OnStart` auto-injection of `transformClassDeclaration`: for a
component-kind class whose collected implements list does not already
contain the `OnStart` UID, a member named `onStart` is a fatal collision
diagnostic, and otherwise the `OnStart` UID is appended. -/
def injectOnStart (env : Env) (cls : ClassDecl) (classInfo : ClassInfo)
    (implementClauses : List String) : Except String (List String) :=
  if componentDecoratorPresent classInfo.decorators then
    if !implementClauses.contains env.onStartInterfaceUid then
      match cls.members.find? (fun m => m.nameText == some "onStart") with
      | some _ => .error "Components can not have a member named onStart"
      | none => .ok (implementClauses ++ [env.onStartInterfaceUid])
    else .ok implementClauses
  else .ok implementClauses

/-- The `if (node.heritageClauses)` block of `transformClassDeclaration`:
nothing at all happens without heritage clauses; otherwise the implements
UIDs are collected, `OnStart` possibly injected, and the
`flamework:implements` record emitted only when the resulting list is
non-empty. -/
def implementsFields (env : Env) (cls : ClassDecl) (classInfo : ClassInfo) :
    Except String (List (String × Expr)) :=
  match cls.heritageClauses with
  | none => .ok []
  | some clauses =>
    match injectOnStart env cls classInfo (collectImplements clauses) with
    | .error e => .error e
    | .ok impls =>
      .ok (if impls.length > 0 then [("flamework:implements", Expr.strs impls)] else [])

/-- The decorator loop of `transformClassDeclaration`: pushes every
WithNodes decorator's UID onto the id array and stores its config in the
insertion-ordered `decoratorConfigs` map (so a repeated declaration
overwrites its config but adds a second id list entry). -/
def processDecorators (env : Env) (cls : ClassDecl) (decorators : List DecoratorInfo) :
    List String × List (String × Expr) :=
  decorators.foldl
    (fun acc dec =>
      (acc.1 ++ [dec.declUid], mapSet acc.2 dec.declUid (decoratorConfig env cls dec)))
    ([], [])

/-- The dotted per-decorator record key `flamework:decorators.<uid>`. -/
def decKey (id : String) : String :=
  "flamework:decorators." ++ id

/-- The metadata-record assembly of `transformClassDeclaration` for a
processed class: `identifier` and `flamework:isExternal` first, then the
optional dependency and implements records, then the
`flamework:decorators` id list (always), then one `flamework:decorators.<uid>`
record per distinct decorator UID in insertion order. -/
def assembleFields (env : Env) (cls : ClassDecl) (classInfo : ClassInfo) :
    Except String (List (String × Expr)) :=
  match dependencyFields cls with
  | .error e => .error e
  | .ok depF =>
    match implementsFields env cls classInfo with
    | .error e => .error e
    | .ok implF =>
      let decorators := classInfo.decorators.filter (fun d => d.isWithNodes)
      let idsConfigs := processDecorators env cls decorators
      .ok ([("identifier", Expr.str env.classUid),
            ("flamework:isExternal", Expr.boolE classInfo.isExternal)]
           ++ depF ++ implF
           ++ [("flamework:decorators", Expr.strs idsConfigs.1)]
           ++ idsConfigs.2.map (fun p => (decKey p.1, p.2)))

/-- The synthesized empty lifecycle hook
`f.methodDeclaration("onStart", f.block([]))`. -/
def emptyOnStart : MethodDecl :=
  { name := "onStart", hasBody := true, body := [] }

/-- The synthesized `constructor_parameters` internal property, declared
with the tuple type over the constructor parameters' declared type nodes
(the source's unchecked `x.type!`). -/
def internalParamsProp (params : List CtorParam) : PropDecl :=
  { name := "constructor_parameters", nameHasText := true, nameSymbol := none,
    initializer := none,
    typeNode := some (TypeNode.tupleOf (params.map (fun p => p.typeNode))),
    questionToken := false, exclam := false, typeAt := none }

/-- The name each parameter contributes to the destructuring binding: its
own identifier, or the generated pretty name for a binding pattern. -/
def paramBindingName (env : Env) (p : CtorParam) : String :=
  match p.nameIdent with
  | some s => s
  | none => env.prettyName p.typeNode

/-- The `parameterNames` array collected by the parameter loop. -/
def parameterNames (env : Env) (params : List CtorParam) : List String :=
  params.map (paramBindingName env)

/-- The statements the parameter loop pushes for binding-pattern
parameters: each original pattern re-bound from its temporary name. -/
def bindingStatements (env : Env) (params : List CtorParam) : List Stmt :=
  params.filterMap (fun p =>
    match p.nameIdent with
    | some _ => none
    | none => some (Stmt.varPatternInit p.patternId (env.prettyName p.typeNode)))

/-- The rewritten parameter list: binding patterns replaced by their
temporary identifiers, identifier parameters kept. -/
def updatedParams (env : Env) (params : List CtorParam) : List CtorParam :=
  params.map (fun p =>
    match p.nameIdent with
    | some _ => p
    | none => { p with nameIdent := some (env.prettyName p.typeNode) })

/-- The `constructor.body.statements.filter((x) => x !== superCall?.parent)`
step: removes exactly the one statement `forEachChildRecursively`
located (the first `super(...)` call statement). -/
def eraseFirstSuper : List Stmt → List Stmt
  | [] => []
  | s :: rest => if s.isSuperStmt then rest else s :: eraseFirstSuper rest

/-- The body the rewrite installs into the constructor: the preserved
`super(...)` call first when one exists, then the assignment of the
captured-parameter record — and nothing else. -/
def rewrittenCtorBody (names : List String) (body : List Stmt) : List Stmt :=
  match body.find? Stmt.isSuperStmt with
  | some s => [s, Stmt.assignCtorParams names]
  | none => [Stmt.assignCtorParams names]

/-- The `constructorStatements` array as finally assembled: the
destructuring of the captured record first, then the binding-pattern
re-bindings, then the original constructor body without the hoisted
`super(...)` statement. -/
def hoistedCtorStatements (env : Env) (params : List CtorParam) (body : List Stmt) :
    List Stmt :=
  Stmt.varDestructure (parameterNames env params) ::
    (bindingStatements env params ++
      (match body.find? Stmt.isSuperStmt with
       | some _ => eraseFirstSuper body
       | none => body))

/-- The `memberIndexMapping` construction: `Map<Symbol, number>` from each
property member's name symbol to its index in the (possibly extended)
member list, later entries overwriting earlier ones. -/
def assocSet (m : List (String × Nat)) (k : String) (v : Nat) : List (String × Nat) :=
  if m.any (fun p => p.1 == k) then
    m.map (fun p => if p.1 == k then (k, v) else p)
  else
    m ++ [(k, v)]

/-- Builds `memberIndexMapping` over the current member list. -/
def buildIndexMapping (members : List ClassElement) : List (String × Nat) :=
  (members.enum).foldl
    (fun acc p =>
      match p.2 with
      | ClassElement.prop pd =>
        match pd.nameSymbol with
        | some s => assocSet acc s p.1
        | none => acc
      | _ => acc)
    []

/-- The initializer validator closure of `updateClass`: for each node the
recursive walk visits, resolve its symbol, look it up in
`memberIndexMapping`, and raise the use-before-initialization diagnostic
when the referenced member's index is at or after the current member's
index.  The source's `if (!symbolIndex) return;` is a JavaScript
truthiness check, so a looked-up index of `0` is also skipped. -/
def validateRef (mapping : List (String × Nat)) (i : Nat) (s : String) :
    Except String Unit :=
  match mapping.lookup s with
  | none => .ok ()
  | some symbolIndex =>
    if symbolIndex == 0 then .ok ()
    else if i ≤ symbolIndex then
      .error ("Property " ++ s ++ " is used before its initialization.")
    else .ok ()

/-- Runs the validator over every referenced symbol of an initializer, in
visit order, stopping at the first diagnostic. -/
def validateInit (mapping : List (String × Nat)) (i : Nat) (init : Expr) :
    Except String Unit :=
  (Expr.refs init).forM (validateRef mapping i)

/-- The body of the `members.map((x, i) => ...)` callback: rewrites one
property member with an initializer (validating its references and
deferring the initializer), passes everything else through
`transformNode` (identity for this transformation). -/
def mapMember (env : Env) (mapping : List (String × Nat)) (i : Nat)
    (m : ClassElement) : Except String (ClassElement × List (String × Expr)) :=
  match m with
  | ClassElement.prop p =>
    match p.initializer with
    | none => .ok (m, [])
    | some init =>
      if !p.nameHasText then .ok (m, [])
      else
        match p.typeAt with
        | none => .ok (m, [])
        | some ty =>
          match validateInit mapping i init with
          | .error e => .error e
          | .ok _ =>
            let newProp :=
              match p.typeNode with
              | some t =>
                { p with initializer := none, exclam := true,
                         typeNode := some (if p.questionToken then TypeNode.unionUndef t else t) }
              | none =>
                match env.universalTypeNode ty with
                | some t => { p with initializer := none, exclam := true, typeNode := some t }
                | none => { p with initializer := some (Expr.inferCall init) }
            .ok (ClassElement.prop newProp, [(p.name, init)])
  | _ => .ok (m, [])

/-- The indexed `members.map` over the member list, also collecting the
`propertyDeclarations` deferred-assignment pairs in member order. -/
def mapMembersAux (env : Env) (mapping : List (String × Nat)) (i : Nat) :
    List ClassElement → Except String (List ClassElement × List (String × Expr))
  | [] => .ok ([], [])
  | m :: rest =>
    match mapMember env mapping i m with
    | .error e => .error e
    | .ok mp =>
      match mapMembersAux env mapping (i + 1) rest with
      | .error e => .error e
      | .ok restp => .ok (mp.1 :: restp.1, mp.2 ++ restp.2)

/-- The `replaceValue(members, constructor, newCtor)` call: replaces the
one element the earlier `findIndex` located (the first constructor). -/
def replaceFirstCtor (members : List ClassElement) (newC : ClassElement) :
    List ClassElement :=
  match members with
  | [] => []
  | m :: rest =>
    match m with
    | ClassElement.ctor _ => newC :: rest
    | _ => m :: replaceFirstCtor rest newC

/-- The final `members[onStartIndex] = f.update.methodDeclaration(...)`
step: re-finds the `onStart` member by name and installs the new hook
body — the deferred property assignments, then the constructor-statement
block, then the author's original hook statements. -/
def setOnStart (members : List ClassElement) (om : MethodDecl)
    (props : List (String × Expr)) (ctorStmts : List Stmt) : List ClassElement :=
  let newBody := props.map (fun p => Stmt.assignThisField p.1 p.2) ++
    [Stmt.block ctorStmts] ++ om.body
  members.set (members.findIdx (fun m => m.nameText == some "onStart"))
    (ClassElement.method { om with body := newBody })

/-- Embedding of `updateClass` (the constructor/field lifecycle rewriter):
applies only when a component-kind decorator is present; locates or
synthesizes the `onStart` hook, validates and defers field initializers,
captures constructor parameters into the internal record property, and
rebuilds the hook body.  `state.transform` / `state.transformNode`
(recursive descent into other transformations) are modelled as the
identity. -/
def updateClass (env : Env) (cls : ClassDecl) (decorators : List DecoratorInfo) :
    Except String (List ClassElement) :=
  if !componentDecoratorPresent decorators then .ok cls.members
  else
    let members0 := cls.members
    let found := members0.find? (fun m => m.nameText == some "onStart")
    let members1 :=
      if found.isNone then ClassElement.method emptyOnStart :: members0 else members0
    let onStart := found.getD (ClassElement.method emptyOnStart)
    match onStart with
    | ClassElement.method om =>
      if !om.hasBody then .ok members1
      else
        match mapMembersAux env (buildIndexMapping members1) 0 members1 with
        | .error e => .error e
        | .ok mp =>
          match mp.1.findSome? ClassElement.ctorData with
          | none => .ok (setOnStart mp.1 om mp.2 [])
          | some c =>
            let newCtor := ClassElement.ctor
              { c with params := updatedParams env c.params,
                       body := rewrittenCtorBody (parameterNames env c.params) c.body }
            let members3 :=
              replaceFirstCtor (ClassElement.prop (internalParamsProp c.params) :: mp.1) newCtor
            .ok (setOnStart members3 om mp.2 (hoistedCtorStatements env c.params c.body))
    | _ => .ok members1

/-- Embedding of `transformClassDeclaration`: classes without a symbol, a
name or registered class info are passed through unprocessed (`none`);
otherwise the metadata records are assembled (fatal diagnostics abort the
class) and the member list rewritten by `updateClass`, and both are
returned. -/
def transformClassDeclaration (env : Env) (cls : ClassDecl)
    (classInfoOpt : Option ClassInfo) :
    Except String (Option (List ClassElement × List (String × Expr))) :=
  if !cls.hasSymbol then .ok none
  else
    match cls.name with
    | none => .ok none
    | some _ =>
      match classInfoOpt with
      | none => .ok none
      | some classInfo =>
        match assembleFields env cls classInfo with
        | .error e => .error e
        | .ok fields =>
          match updateClass env cls (classInfo.decorators.filter (fun d => d.isWithNodes)) with
          | .error e => .error e
          | .ok ms => .ok (some (ms, fields))

/-- A concrete assignability oracle for witnesses and counterexamples:
reflexive, and a literal type is (strictly) assignable to the `string`
primitive. -/
def defaultAssignable (a b : Ty) : Bool :=
  a == b ||
    (match a, b with
     | Ty.lit _, Ty.prim p => p == "string"
     | _, _ => false)

/-- A concrete environment for witnesses and counterexamples. -/
def defaultEnv : Env :=
  { classUid := "uid:Class",
    onStartInterfaceUid := "uid:OnStart",
    prettyName := fun _ => "binding",
    universalTypeNode := fun t => some (TypeNode.ofTy t),
    assignable := defaultAssignable,
    properties := fun t =>
      match t with
      | Ty.named "SuperAttrs" => ["x"]
      | Ty.named "SubAttrs" => ["x"]
      | _ => [],
    typeOfProperty := fun t name =>
      match t, name with
      | Ty.named "SubAttrs", "x" => some (Ty.lit "a")
      | Ty.named "SuperAttrs", "x" => some (Ty.prim "string")
      | _, _ => none }

/-- A minimal processed class with nothing attached. -/
def baseClass : ClassDecl :=
  { hasSymbol := true, name := some "Example", members := [],
    heritageClauses := none, instanceProperty := none,
    attributesProperty := none, superClasses := [] }

/-- A component class whose declared instance type (`Ty.lit "a"`) strictly
narrows the superclass's declared instance type (`Ty.prim "string"`). -/
def narrowedInstanceClass : ClassDecl :=
  { baseClass with
    instanceProperty := some { parent := "BaseComponent", ty := Ty.lit "a" },
    superClasses :=
      [{ instanceProperty := some { parent := "BaseComponent", ty := Ty.prim "string" },
         attributesProperty := none }] }

/-- A component class whose declared instance type equals the
superclass's. -/
def equalInstanceClass : ClassDecl :=
  { baseClass with
    instanceProperty := some { parent := "BaseComponent", ty := Ty.prim "number" },
    superClasses :=
      [{ instanceProperty := some { parent := "BaseComponent", ty := Ty.prim "number" },
         attributesProperty := none }] }

/-- Claim C1 counterexample: the subclass's declared instance type
`Ty.lit "a"` IS assignable to the superclass's `Ty.prim "string"`, yet the
code appends a compiled `instanceGuard` — the source tests
`isTypeAssignableTo(superInstanceType, instanceType)`, the opposite
direction of the claim's wording. -/
theorem updateInstanceGuard_claim_cex :
    defaultEnv.assignable (Ty.lit "a") (Ty.prim "string") = true ∧
    updateInstanceGuard defaultEnv narrowedInstanceClass [] =
      some [("instanceGuard", Expr.guard (Ty.lit "a"))] :=
  ⟨rfl, rfl⟩

/-- Claim C1 (amended): for a component-kind class whose type has an
`instance` property from `BaseComponent`, with a superclass and no
author-supplied `instanceGuard` entry, no `instanceGuard` is added exactly
when the SUPERCLASS's declared instance type is assignable to the
subclass's declared instance type; otherwise a compiled guard for the
subclass's instance type is appended as `instanceGuard`. -/
theorem updateInstanceGuard_spec (env : Env) (cls : ClassDecl)
    (properties : List (String × Expr)) (ip sp : PropSym) (sup : SuperClassModel)
    (h1 : cls.instanceProperty = some ip) (h2 : ip.parent = "BaseComponent")
    (h3 : cls.superClasses.head? = some sup)
    (h4 : (properties.find? (fun p => p.1 == "instanceGuard")).isSome = false)
    (h5 : sup.instanceProperty = some sp) :
    updateInstanceGuard env cls properties =
      some (if env.assignable sp.ty ip.ty then properties
            else properties ++ [("instanceGuard", Expr.guard ip.ty)]) := by
  simp only [updateInstanceGuard, h1, h2, h3, h4, h5, buildGuardFromType]
  cases h : env.assignable sp.ty ip.ty <;> simp [h]

/-- Witness for the amended C1 theorem at a concrete input where the
instance types agree, so no guard is appended. -/
theorem updateInstanceGuard_spec_witness :
    updateInstanceGuard defaultEnv equalInstanceClass [] = some [] := by
  have h := updateInstanceGuard_spec defaultEnv equalInstanceClass []
    { parent := "BaseComponent", ty := Ty.prim "number" }
    { parent := "BaseComponent", ty := Ty.prim "number" }
    { instanceProperty := some { parent := "BaseComponent", ty := Ty.prim "number" },
      attributesProperty := none }
    rfl rfl rfl rfl rfl
  rw [show defaultEnv.assignable (Ty.prim "number") (Ty.prim "number") = true from rfl] at h
  simpa using h

/-- A component class whose `attributes` shape declares `x : Ty.lit "a"`,
a strict narrowing of the superclass shape's `x : Ty.prim "string"`. -/
def attrsClass : ClassDecl :=
  { baseClass with
    attributesProperty := some { parent := "BaseComponent", ty := Ty.named "SubAttrs" },
    superClasses :=
      [{ instanceProperty := none,
         attributesProperty := some { parent := "BaseComponent", ty := Ty.named "SuperAttrs" } }] }

/-- Claim C2 counterexample: field `x` is present in both shapes with
non-identical types (`Ty.lit "a"` vs `Ty.prim "string"`), yet
`calculateOmittedGuards` includes `x` because the author supplied an
explicit `x` entry inside the custom `attributes` object — so "included
exactly when the two types are identical" fails as stated. -/
theorem calculateOmittedGuards_claim_cex :
    defaultEnv.typeOfProperty (Ty.named "SubAttrs") "x" = some (Ty.lit "a") ∧
    defaultEnv.typeOfProperty (Ty.named "SuperAttrs") "x" = some (Ty.prim "string") ∧
    Ty.lit "a" ≠ Ty.prim "string" ∧
    "x" ∈ calculateOmittedGuards defaultEnv attrsClass
        (some ("attributes", Expr.obj [("x", Expr.raw 0)])) :=
  ⟨rfl, rfl, by decide, by decide⟩

/-- Claim C2 (amended): for a field name present in both the class's and
its first superclass's attributes shapes, `calculateOmittedGuards` includes
the name exactly when the two fields' checker types are identical OR the
author supplied an explicit entry of that name in the custom `attributes`
object; in particular a strictly narrowed field with no author override is
not omitted and its generated guard survives the filter. -/
theorem calculateOmittedGuards_spec (env : Env) (cls : ClassDecl)
    (custom : Option (String × Expr)) (ap sap : PropSym) (sup : SuperClassModel)
    (name : String) (pt spt : Ty)
    (h1 : cls.attributesProperty = some ap)
    (h2 : cls.superClasses.head? = some sup)
    (h3 : sup.attributesProperty = some sap)
    (h4 : env.typeOfProperty ap.ty name = some pt)
    (h5 : env.typeOfProperty sap.ty name = some spt)
    (h6 : name ∈ env.properties sap.ty) :
    (name ∈ calculateOmittedGuards env cls custom ↔
      spt = pt ∨ name ∈ customAttributeNames custom) ∧
    (spt ≠ pt → name ∉ customAttributeNames custom →
      ∀ g ∈ buildGuardsFromType env ap.ty, g.1 = name →
        g ∈ filteredAttributeGuards env cls ap.ty custom) := by
  have hmem : name ∈ calculateOmittedGuards env cls custom ↔
      spt = pt ∨ name ∈ customAttributeNames custom := by
    simp only [calculateOmittedGuards, h1, h2, h3, List.mem_append, List.mem_filter, h4, h5,
      beq_iff_eq, h6, true_and]
    exact or_comm
  refine ⟨hmem, fun hne hnc g hg hgname => ?_⟩
  have hnot : name ∉ calculateOmittedGuards env cls custom := by
    rw [hmem]
    rintro (h | h)
    · exact hne h
    · exact hnc h
  rw [filteredAttributeGuards, List.mem_filter]
  refine ⟨hg, ?_⟩
  rw [hgname]
  simpa using hnot

/-- Witness for the amended C2 theorem: with no author override and a
strictly narrowed field type, `x` is not omitted. -/
theorem calculateOmittedGuards_spec_witness :
    "x" ∉ calculateOmittedGuards defaultEnv attrsClass none := by
  have h := calculateOmittedGuards_spec defaultEnv attrsClass none
    { parent := "BaseComponent", ty := Ty.named "SubAttrs" }
    { parent := "BaseComponent", ty := Ty.named "SuperAttrs" }
    { instanceProperty := none,
      attributesProperty := some { parent := "BaseComponent", ty := Ty.named "SuperAttrs" } }
    "x" (Ty.lit "a") (Ty.prim "string") rfl rfl rfl rfl rfl (by decide)
  rw [h.1]
  rintro (hc | hc)
  · exact absurd hc (by decide)
  · exact absurd hc (by decide)

/-- A non-recognized third-party annotation carrying two raw argument
expressions. -/
def arbitraryDec : DecoratorInfo :=
  { name := "Thing", isFlameworkDecorator := false, isWithNodes := true,
    declUid := "uid:Thing", arguments := [Expr.raw 1, Expr.raw 2] }

/-- Claim C4 counterexample: the configuration record of a non-recognized
annotation is keyed `type`/`arguments` — there is no `kind` key, so the
claimed record shape `{kind: "Arbitrary", arguments: [...]}` is not what
the code emits. -/
theorem decoratorConfig_claim_cex :
    (decoratorConfig defaultEnv baseClass arbitraryDec).objKeys = ["type", "arguments"] ∧
    "kind" ∉ (decoratorConfig defaultEnv baseClass arbitraryDec).objKeys :=
  ⟨rfl, by decide⟩

/-- Claim C4 (amended): every annotation not recognized as a runtime-native
(flamework) kind gets the configuration record
`{type: "Arbitrary", arguments: [...]}` wrapping its raw argument
expressions verbatim, with no `attributes` or `instanceGuard` field
injected. -/
theorem decoratorConfig_arbitrary (env : Env) (cls : ClassDecl) (dec : DecoratorInfo)
    (h : dec.isFlameworkDecorator = false) :
    decoratorConfig env cls dec =
      Expr.obj [("type", Expr.str "Arbitrary"), ("arguments", Expr.arr dec.arguments)] ∧
    "attributes" ∉ (decoratorConfig env cls dec).objKeys ∧
    "instanceGuard" ∉ (decoratorConfig env cls dec).objKeys := by
  have he : decoratorConfig env cls dec =
      Expr.obj [("type", Expr.str "Arbitrary"), ("arguments", Expr.arr dec.arguments)] := by
    simp [decoratorConfig, h]
  refine ⟨he, ?_, ?_⟩ <;> rw [he] <;> simp [Expr.objKeys]

/-- Witness for the amended C4 theorem at a concrete annotation. -/
theorem decoratorConfig_arbitrary_witness :
    decoratorConfig defaultEnv baseClass arbitraryDec =
      Expr.obj [("type", Expr.str "Arbitrary"),
        ("arguments", Expr.arr [Expr.raw 1, Expr.raw 2])] :=
  (decoratorConfig_arbitrary defaultEnv baseClass arbitraryDec rfl).1

/-- Whether a rewriter run completed without raising a diagnostic. -/
def rewriteSucceeded (r : Except String (List ClassElement)) : Bool :=
  match r with
  | .ok _ => true
  | .error _ => false

/-- The member list of a successful rewriter run (empty on a
diagnostic). -/
def okMembers (r : Except String (List ClassElement)) : List ClassElement :=
  match r with
  | .ok ms => ms
  | .error _ => []

/-- The body of the first constructor in a member list. -/
def ctorBodyOf (ms : List ClassElement) : List Stmt :=
  match ms.findSome? ClassElement.ctorData with
  | some c => c.body
  | none => []

/-- The recognized component-kind annotation. -/
def componentDec : DecoratorInfo :=
  { name := "Component", isFlameworkDecorator := true, isWithNodes := true,
    declUid := "uid:Component", arguments := [] }

/-- A field whose initializer references the field itself. -/
def selfRefProp : PropDecl :=
  { name := "a", nameHasText := true, nameSymbol := some "a",
    initializer := some (Expr.ref "a"),
    typeNode := some (TypeNode.ofTy (Ty.prim "number")),
    questionToken := false, exclam := false, typeAt := some (Ty.prim "number") }

/-- An initializer-free filler field occupying member index 0. -/
def fillerProp : PropDecl :=
  { name := "z", nameHasText := true, nameSymbol := some "z", initializer := none,
    typeNode := some (TypeNode.ofTy (Ty.prim "number")),
    questionToken := false, exclam := false, typeAt := some (Ty.prim "number") }

/-- An author-written empty `onStart` hook. -/
def explicitOnStart : MethodDecl :=
  { name := "onStart", hasBody := true, body := [] }

/-- A component class whose self-referencing field sits at member
index 0 (the author's `onStart` comes after it, so no member is
prepended). -/
def selfRefAtZeroClass : ClassDecl :=
  { baseClass with members :=
      [ClassElement.prop selfRefProp, ClassElement.method explicitOnStart] }

/-- The same self-referencing field, now at member index 1. -/
def selfRefAtOneClass : ClassDecl :=
  { baseClass with members :=
      [ClassElement.prop fillerProp, ClassElement.prop selfRefProp,
       ClassElement.method explicitOnStart] }

/-- Claim C5 (code bug): a field at member index 0 whose initializer
references a field declared at its own position (itself) raises no
`UseBeforeInitialization` diagnostic, because the source's
`if (!symbolIndex) return;` treats the looked-up index `0` as falsy — yet
the identical self-reference at member index 1 does raise the
diagnostic, showing the index-0 escape is a slip rather than intent. -/
theorem updateClass_useBeforeInit_bug :
    rewriteSucceeded (updateClass defaultEnv selfRefAtZeroClass [componentDec]) = true ∧
    updateClass defaultEnv selfRefAtOneClass [componentDec] =
      .error "Property a is used before its initialization." :=
  ⟨rfl, rfl⟩

/-- An `onStart` hook member with the given body. -/
def onStartMethodElem (body : List Stmt) : ClassElement :=
  ClassElement.method { name := "onStart", hasBody := true, body := body }

/-- A constructor member with the given parameters and body. -/
def ctorElem (params : List CtorParam) (body : List Stmt) : ClassElement :=
  ClassElement.ctor { params := params, body := body }

/-- Claim C6 (amended): for a component class with a constructor, the
rewritten constructor body is the preserved base-call statement (when one
exists) followed by the captured-parameter record assignment and nothing
else; the parameter destructuring and the remaining original body
statements (without the hoisted base call) move into the
lifecycle-hook body's constructor block. -/
theorem updateClass_ctor_rewrite (env : Env) (onBody : List Stmt)
    (params : List CtorParam) (body : List Stmt) (cls : ClassDecl)
    (h : cls.members = [onStartMethodElem onBody, ctorElem params body]) :
    updateClass env cls [componentDec] =
      .ok [ClassElement.prop (internalParamsProp params),
           onStartMethodElem ([Stmt.block (hoistedCtorStatements env params body)] ++ onBody),
           ctorElem (updatedParams env params) (rewrittenCtorBody (parameterNames env params) body)] := by
  simp only [updateClass, h]
  rfl

/-- A constructor parameter with an identifier name. -/
def ctorParamX : CtorParam :=
  { isReferenceType := true, declUid := some "uid:Dep1", nameIdent := some "x",
    patternId := 0, typeNode := some (TypeNode.ofTy (Ty.named "Dep1")) }

/-- A component class with an `onStart` hook and a constructor whose body
holds a `super()` call and one further author statement. -/
def ctorClass : ClassDecl :=
  { baseClass with members :=
      [onStartMethodElem [],
       ctorElem [ctorParamX] [Stmt.superStmt [], Stmt.exprStmt (Expr.raw 7)]] }

/-- Witness for the amended C6 theorem at a concrete component class. -/
theorem updateClass_ctor_rewrite_witness :
    updateClass defaultEnv ctorClass [componentDec] =
      .ok [ClassElement.prop (internalParamsProp [ctorParamX]),
           onStartMethodElem ([Stmt.block (hoistedCtorStatements defaultEnv [ctorParamX]
             [Stmt.superStmt [], Stmt.exprStmt (Expr.raw 7)])] ++ []),
           ctorElem (updatedParams defaultEnv [ctorParamX])
             (rewrittenCtorBody (parameterNames defaultEnv [ctorParamX])
               [Stmt.superStmt [], Stmt.exprStmt (Expr.raw 7)])] :=
  updateClass_ctor_rewrite defaultEnv [] [ctorParamX]
    [Stmt.superStmt [], Stmt.exprStmt (Expr.raw 7)] ctorClass rfl

/-- Claim C6 counterexample: with one author statement after the
`super()` call, the rewritten constructor body holds exactly the
preserved base call and the record assignment — the remaining original
statement is NOT kept in the constructor (it moves to the hook), so the
claimed body shape `super(); assignment; remaining...` is false. -/
theorem updateClass_ctorBody_claim_cex :
    ctorBodyOf (okMembers (updateClass defaultEnv ctorClass [componentDec])) =
      [Stmt.superStmt [], Stmt.assignCtorParams ["x"]] ∧
    eraseFirstSuper [Stmt.superStmt [], Stmt.exprStmt (Expr.raw 7)] =
      [Stmt.exprStmt (Expr.raw 7)] ∧
    ctorBodyOf (okMembers (updateClass defaultEnv ctorClass [componentDec])) ≠
      [Stmt.superStmt [], Stmt.assignCtorParams ["x"], Stmt.exprStmt (Expr.raw 7)] := by
  refine ⟨rfl, rfl, fun hc => ?_⟩
  rw [show ctorBodyOf (okMembers (updateClass defaultEnv ctorClass [componentDec])) =
      [Stmt.superStmt [], Stmt.assignCtorParams ["x"]] from rfl] at hc
  exact absurd (congrArg List.length hc) (by decide)

/-- A class info carrying exactly the component decorator. -/
def componentInfo : ClassInfo :=
  { isExternal := false, decorators := [componentDec] }

/-- An implements clause naming one resolvable interface. -/
def ifaceClause : HeritageClause :=
  { isImplements := true,
    types := [{ isIdentifier := true, declUid := some "uid:IFace" }] }

/-- A processed class implementing one resolvable interface. -/
def implementingClass : ClassDecl :=
  { baseClass with heritageClauses := some [ifaceClause] }

/-- Claim C8 (amended): for a class WITH heritage clauses carrying the
component-kind annotation whose collected implements list does not contain
the `OnStart` UID: a member named `onStart` raises the fatal
member-name-collision diagnostic, and otherwise the `OnStart` UID is
appended to the emitted implements metadata. -/
theorem implementsFields_component (env : Env) (cls : ClassDecl) (ci : ClassInfo)
    (clauses : List HeritageClause)
    (hH : cls.heritageClauses = some clauses)
    (hC : componentDecoratorPresent ci.decorators = true)
    (hNI : (collectImplements clauses).contains env.onStartInterfaceUid = false) :
    ((cls.members.find? (fun m => m.nameText == some "onStart")).isSome = true →
      implementsFields env cls ci =
        .error "Components can not have a member named onStart") ∧
    ((cls.members.find? (fun m => m.nameText == some "onStart")).isSome = false →
      implementsFields env cls ci =
        .ok [("flamework:implements",
          Expr.strs (collectImplements clauses ++ [env.onStartInterfaceUid]))]) := by
  have hNI' : env.onStartInterfaceUid ∉ collectImplements clauses := by
    simpa using hNI
  cases hfind : cls.members.find? (fun m => m.nameText == some "onStart") with
  | some m =>
    refine ⟨fun _ => ?_, fun habs => by simp at habs⟩
    simp [implementsFields, hH, injectOnStart, hC, hNI', hfind]
  | none =>
    refine ⟨fun habs => by simp at habs, fun _ => ?_⟩
    simp [implementsFields, hH, injectOnStart, hC, hNI', hfind]

/-- Witness for the amended C8 theorem: the `OnStart` UID is injected for
a component class with an implements clause and no `onStart` member. -/
theorem implementsFields_component_witness :
    implementsFields defaultEnv implementingClass componentInfo =
      .ok [("flamework:implements", Expr.strs ["uid:IFace", "uid:OnStart"])] := by
  have h := (implementsFields_component defaultEnv implementingClass componentInfo
    [ifaceClause] rfl rfl rfl).2 rfl
  exact h

/-- A component class with NO heritage clauses but an `onStart` member. -/
def noHeritageOnStartClass : ClassDecl :=
  { baseClass with members := [onStartMethodElem []] }

/-- Claim C8 counterexample: a component-kind class with no heritage
clauses and a member named `onStart` (and which does not implement the
lifecycle-hook interface) is processed without any diagnostic, and no
implements metadata is injected — the collision check and the injection
run only inside the `if (node.heritageClauses)` block. -/
theorem transformClass_onStart_claim_cex :
    (noHeritageOnStartClass.members.find? (fun m => m.nameText == some "onStart")).isSome
      = true ∧
    componentDecoratorPresent componentInfo.decorators = true ∧
    noHeritageOnStartClass.heritageClauses = none ∧
    transformClassDeclaration defaultEnv noHeritageOnStartClass (some componentInfo) =
      .ok (some ([onStartMethodElem [Stmt.block []]],
        [("identifier", Expr.str "uid:Class"),
         ("flamework:isExternal", Expr.boolE false),
         ("flamework:decorators", Expr.strs ["uid:Component"]),
         (decKey "uid:Component", Expr.obj [("type", Expr.str "Component")])])) :=
  ⟨rfl, rfl, rfl, rfl⟩

/-- Head case of the dependency loop: some parameter fails to resolve, so
the loop throws one of the two diagnostics. -/
theorem collectDependencies_error (params : List CtorParam)
    (h : ∃ p ∈ params, p.isReferenceType = false ∨ p.declUid = none) :
    ∃ m, collectDependencies params = .error m ∧
      (m = "Expected type reference" ∨ m = "Could not find declaration") := by
  induction params with
  | nil => simp at h
  | cons p rest ih =>
    by_cases hr : p.isReferenceType = true
    · cases hu : p.declUid with
      | none =>
        exact ⟨"Could not find declaration", by simp [collectDependencies, hr, hu], Or.inr rfl⟩
      | some u =>
        have hrest : ∃ q ∈ rest, q.isReferenceType = false ∨ q.declUid = none := by
          rcases h with ⟨q, hq, hbad⟩
          rcases List.mem_cons.mp hq with hqp | hq'
          · subst hqp
            rcases hbad with hb | hb
            · rw [hr] at hb; exact absurd hb (by decide)
            · rw [hu] at hb; exact absurd hb (by simp)
          · exact ⟨q, hq', hbad⟩
        rcases ih hrest with ⟨m, hm, hor⟩
        exact ⟨m, by simp [collectDependencies, hr, hu, hm], hor⟩
    · have hrf : p.isReferenceType = false := by
        cases hb : p.isReferenceType
        · rfl
        · exact absurd hb hr
      exact ⟨"Expected type reference", by simp [collectDependencies, hrf], Or.inl rfl⟩

/-- When every parameter resolves, the dependency loop collects the
declaration UIDs in parameter order. -/
theorem collectDependencies_ok (params : List CtorParam)
    (h : ∀ p ∈ params, p.isReferenceType = true ∧ p.declUid.isSome) :
    collectDependencies params = .ok (params.filterMap CtorParam.declUid) := by
  induction params with
  | nil => rfl
  | cons p rest ih =>
    rcases h p (List.mem_cons_self p rest) with ⟨h1, h2⟩
    rcases Option.isSome_iff_exists.mp h2 with ⟨u, hu⟩
    have hrest := fun q hq => h q (List.mem_cons_of_mem p hq)
    simp [collectDependencies, h1, hu, ih hrest, List.filterMap_cons]

/-- A successful dependency collection yields one UID per parameter. -/
theorem collectDependencies_length (params : List CtorParam) (deps : List String)
    (h : collectDependencies params = .ok deps) : deps.length = params.length := by
  induction params generalizing deps with
  | nil =>
    rw [collectDependencies] at h
    cases h
    rfl
  | cons p rest ih =>
    rw [collectDependencies] at h
    split at h
    · exact absurd h (by simp)
    · split at h
      · exact absurd h (by simp)
      · split at h
        · exact absurd h (by simp)
        · rename_i uids huids
          cases h
          simp [ih uids huids]

/-- Claim C7: for a processed class with a constructor, an unresolvable
parameter aborts the whole class with the corresponding diagnostic, and
when every parameter resolves the emitted `flamework:dependencies` record
lists each parameter declaration's UID in parameter order. -/
theorem transformClassDeclaration_dependencies (env : Env) (cls : ClassDecl)
    (ci : ClassInfo) (c : CtorDecl) (nm : String)
    (hS : cls.hasSymbol = true) (hN : cls.name = some nm)
    (hCtor : cls.members.findSome? ClassElement.ctorData = some c) :
    ((∃ p ∈ c.params, p.isReferenceType = false ∨ p.declUid = none) →
      ∃ m, transformClassDeclaration env cls (some ci) = .error m ∧
        (m = "Expected type reference" ∨ m = "Could not find declaration")) ∧
    ((∀ p ∈ c.params, p.isReferenceType = true ∧ p.declUid.isSome) →
      c.params ≠ [] →
      ∀ ms fields, transformClassDeclaration env cls (some ci) = .ok (some (ms, fields)) →
        ("flamework:dependencies", Expr.strs (c.params.filterMap CtorParam.declUid)) ∈ fields) := by
  constructor
  · intro hbad
    rcases collectDependencies_error c.params hbad with ⟨m, hm, hor⟩
    refine ⟨m, ?_, hor⟩
    simp [transformClassDeclaration, assembleFields, dependencyFields, hS, hN, hCtor, hm]
  · intro hgood hne ms fields hok
    have hdeps := collectDependencies_ok c.params hgood
    have hlen : c.params.length > 0 := List.length_pos.mpr hne
    have hdf : dependencyFields cls =
        .ok [("flamework:dependencies", Expr.strs (c.params.filterMap CtorParam.declUid))] := by
      simp only [dependencyFields, hCtor, hdeps]
      simp [hlen]
    cases himpl : implementsFields env cls ci with
    | error e =>
      simp only [transformClassDeclaration, hS, hN, assembleFields, hdf, himpl,
        Bool.not_true, Bool.false_eq_true, if_false, ite_false] at hok
      simp at hok
    | ok implF =>
      simp only [transformClassDeclaration, hS, hN, assembleFields, hdf, himpl,
        Bool.not_true, Bool.false_eq_true, if_false, ite_false] at hok
      split at hok
      · exact absurd hok (by simp)
      · rw [Except.ok.injEq, Option.some.injEq, Prod.mk.injEq] at hok
        rcases hok with ⟨_, hfields⟩
        rw [← hfields]
        simp [List.mem_append]

/-- A second resolvable constructor parameter. -/
def ctorParamY : CtorParam :=
  { isReferenceType := true, declUid := some "uid:Dep2", nameIdent := some "y",
    patternId := 0, typeNode := some (TypeNode.ofTy (Ty.named "Dep2")) }

/-- A class info with no decorators. -/
def emptyInfo : ClassInfo :=
  { isExternal := false, decorators := [] }

/-- A processed class with a two-parameter constructor and nothing else. -/
def dependencyClass : ClassDecl :=
  { baseClass with members := [ctorElem [ctorParamX, ctorParamY] []] }

/-- Witness for the C7 theorem: the dependencies record of a class whose
two constructor parameters resolve to `uid:Dep1` and `uid:Dep2`. -/
theorem transformClassDeclaration_dependencies_witness :
    ("flamework:dependencies", Expr.strs ["uid:Dep1", "uid:Dep2"]) ∈
      [("identifier", Expr.str "uid:Class"),
       ("flamework:isExternal", Expr.boolE false),
       ("flamework:dependencies", Expr.strs ["uid:Dep1", "uid:Dep2"]),
       ("flamework:decorators", Expr.strs [])] := by
  have h := (transformClassDeclaration_dependencies defaultEnv dependencyClass emptyInfo
      { params := [ctorParamX, ctorParamY], body := [] } "Example" rfl rfl rfl).2
    (by decide) (by simp)
    dependencyClass.members
    [("identifier", Expr.str "uid:Class"),
     ("flamework:isExternal", Expr.boolE false),
     ("flamework:dependencies", Expr.strs ["uid:Dep1", "uid:Dep2"]),
     ("flamework:decorators", Expr.strs [])]
    rfl
  exact h

/-- A recognized non-component annotation. -/
def serviceDec : DecoratorInfo :=
  { name := "Service", isFlameworkDecorator := true, isWithNodes := true,
    declUid := "uid:Service", arguments := [] }

/-- A class info with exactly the recognized `Service` annotation. -/
def serviceInfo : ClassInfo :=
  { isExternal := false, decorators := [serviceDec] }

/-- Claim C3 (amended): for a processed class with NO heritage clauses, a
two-parameter constructor whose parameters resolve, and exactly one
annotation — recognized and of the expression-argument kind — the emitted
record key sequence is exactly `identifier`, the external flag, the
dependencies record (a list of length 2), the decorators list record
(length 1), and the one per-decorator config record; `identifier` comes
first.  (With heritage clauses, an implements record can sit between the
dependencies and decorators records.) -/
theorem transformClassDeclaration_ordering (env : Env) (cls : ClassDecl)
    (ci : ClassInfo) (c : CtorDecl) (nm : String) (p1 p2 : CtorParam)
    (u1 u2 : String) (d : DecoratorInfo) (ms : List ClassElement)
    (hS : cls.hasSymbol = true) (hN : cls.name = some nm)
    (hHer : cls.heritageClauses = none)
    (hCtor : cls.members.findSome? ClassElement.ctorData = some c)
    (hparams : c.params = [p1, p2])
    (hp1 : p1.isReferenceType = true) (hp1u : p1.declUid = some u1)
    (hp2 : p2.isReferenceType = true) (hp2u : p2.declUid = some u2)
    (hdecs : ci.decorators = [d])
    (hdW : d.isWithNodes = true)
    (hU : updateClass env cls [d] = .ok ms) :
    transformClassDeclaration env cls (some ci) =
      .ok (some (ms,
        [("identifier", Expr.str env.classUid),
         ("flamework:isExternal", Expr.boolE ci.isExternal),
         ("flamework:dependencies", Expr.strs [u1, u2]),
         ("flamework:decorators", Expr.strs [d.declUid]),
         (decKey d.declUid, decoratorConfig env cls d)])) := by
  have hdeps : collectDependencies c.params = .ok [u1, u2] := by
    rw [hparams]
    simp [collectDependencies, hp1, hp1u, hp2, hp2u]
  have hdf : dependencyFields cls = .ok [("flamework:dependencies", Expr.strs [u1, u2])] := by
    simp only [dependencyFields, hCtor, hdeps]
    rw [hparams]
    simp
  have himpl : implementsFields env cls ci = .ok [] := by
    simp [implementsFields, hHer]
  have hfilter : ci.decorators.filter (fun d => d.isWithNodes) = [d] := by
    simp [hdecs, hdW]
  have hproc : processDecorators env cls [d] =
      ([d.declUid], [(d.declUid, decoratorConfig env cls d)]) := by
    simp [processDecorators, mapSet]
  simp only [transformClassDeclaration, hS, hN, assembleFields, hdf, himpl, hfilter, hproc,
    hU, Bool.not_true, Bool.false_eq_true, if_false, ite_false]
  simp [decKey]

/-- Witness for the amended C3 theorem at a concrete ordered class. -/
theorem transformClassDeclaration_ordering_witness :
    transformClassDeclaration defaultEnv dependencyClass (some serviceInfo) =
      .ok (some (dependencyClass.members,
        [("identifier", Expr.str defaultEnv.classUid),
         ("flamework:isExternal", Expr.boolE serviceInfo.isExternal),
         ("flamework:dependencies", Expr.strs ["uid:Dep1", "uid:Dep2"]),
         ("flamework:decorators", Expr.strs [serviceDec.declUid]),
         (decKey serviceDec.declUid,
          decoratorConfig defaultEnv dependencyClass serviceDec)])) :=
  transformClassDeclaration_ordering defaultEnv dependencyClass serviceInfo
    { params := [ctorParamX, ctorParamY], body := [] } "Example"
    ctorParamX ctorParamY "uid:Dep1" "uid:Dep2" serviceDec dependencyClass.members
    rfl rfl rfl rfl rfl rfl rfl rfl rfl rfl rfl rfl

/-- The field records of a successful processed-class run (empty
otherwise). -/
def okFieldsOf
    (r : Except String (Option (List ClassElement × List (String × Expr)))) :
    List (String × Expr) :=
  match r with
  | .ok (some p) => p.2
  | _ => []

/-- The ordered class of the C3 counterexample: same two-parameter
constructor and single recognized annotation, but with an implements
heritage clause. -/
def orderedHeritageClass : ClassDecl :=
  { baseClass with
    members := [ctorElem [ctorParamX, ctorParamY] []],
    heritageClauses := some [ifaceClause] }

/-- Claim C3 counterexample: a processed class with a 2-parameter
constructor and one recognized annotation whose record sequence does NOT
continue with the decorators record after dependencies — an implements
record sits in between, so the claimed key sequence is false as stated. -/
theorem transformClassDeclaration_ordering_claim_cex :
    transformClassDeclaration defaultEnv orderedHeritageClass (some serviceInfo) =
      .ok (some (orderedHeritageClass.members,
        [("identifier", Expr.str "uid:Class"),
         ("flamework:isExternal", Expr.boolE false),
         ("flamework:dependencies", Expr.strs ["uid:Dep1", "uid:Dep2"]),
         ("flamework:implements", Expr.strs ["uid:IFace"]),
         ("flamework:decorators", Expr.strs ["uid:Service"]),
         (decKey "uid:Service",
          Expr.obj [("type", Expr.str "Service")])])) ∧
    ((okFieldsOf (transformClassDeclaration defaultEnv orderedHeritageClass
        (some serviceInfo))).map Prod.fst).take 4 ≠
      ["identifier", "flamework:isExternal", "flamework:dependencies",
       "flamework:decorators"] :=
  ⟨rfl, by decide⟩

/-- Strings with equal character data are equal. -/
theorem string_eq_of_data (s t : String) (h : s.data = t.data) : s = t := by
  cases s
  cases t
  exact congrArg String.mk h

/-- Left cancellation for string append. -/
theorem string_append_left_cancel (s t u : String) (h : s ++ t = s ++ u) : t = u := by
  have hd := congrArg String.data h
  rw [String.data_append, String.data_append] at hd
  exact string_eq_of_data _ _ (List.append_cancel_left hd)

/-- The per-decorator record key is injective in the decorator UID. -/
theorem decKey_injective : Function.Injective decKey := by
  intro a b h
  exact string_append_left_cancel _ _ _ h

/-- A per-decorator record key never equals a key whose first 21
characters differ from the decorator-record prefix. -/
theorem decKey_ne (k : String) (hk : k.data.take 21 ≠ "flamework:decorators.".data) :
    ∀ id, decKey id ≠ k := by
  intro id he
  apply hk
  have hd := congrArg String.data he
  rw [decKey, String.data_append] at hd
  rw [← hd]
  have h21 : ("flamework:decorators.".data).length = 21 := by decide
  rw [← h21]
  exact List.take_left _ _

/-- `decKey` avoids the `identifier` key. -/
theorem decKey_ne_identifier : ∀ id, decKey id ≠ "identifier" :=
  decKey_ne _ (by decide)

/-- `decKey` avoids the external-flag key. -/
theorem decKey_ne_isExternal : ∀ id, decKey id ≠ "flamework:isExternal" :=
  decKey_ne _ (by decide)

/-- `decKey` avoids the dependencies key. -/
theorem decKey_ne_dependencies : ∀ id, decKey id ≠ "flamework:dependencies" :=
  decKey_ne _ (by decide)

/-- `decKey` avoids the implements key. -/
theorem decKey_ne_implements : ∀ id, decKey id ≠ "flamework:implements" :=
  decKey_ne _ (by decide)

/-- `decKey` avoids the decorators-list key. -/
theorem decKey_ne_decorators : ∀ id, decKey id ≠ "flamework:decorators" :=
  decKey_ne _ (by decide)

/-- `mapSet` either keeps the key list (existing key) or appends the new
key. -/
theorem mapSet_keys (m : List (String × Expr)) (k : String) (v : Expr) :
    (mapSet m k v).map Prod.fst =
      if m.any (fun p => p.1 == k) then m.map Prod.fst else m.map Prod.fst ++ [k] := by
  unfold mapSet
  split
  · rename_i hany
    rw [List.map_map]
    apply List.map_congr_left
    intro p hp
    by_cases hpk : p.1 == k
    · simp only [Function.comp, hpk, if_pos]
      exact (beq_iff_eq.mp hpk).symm
    · simp only [Function.comp, hpk, if_neg]
      simp [hpk]
  · simp

/-- `mapSet` preserves distinctness of the key list. -/
theorem mapSet_keys_nodup (m : List (String × Expr)) (k : String) (v : Expr)
    (h : (m.map Prod.fst).Nodup) : ((mapSet m k v).map Prod.fst).Nodup := by
  rw [mapSet_keys]
  split
  · exact h
  · rename_i hany
    have hk : k ∉ m.map Prod.fst := by
      intro hmem
      rcases List.mem_map.mp hmem with ⟨p, hp, hpk⟩
      exact hany (List.any_eq_true.mpr ⟨p, hp, by simp [hpk]⟩)
    exact h.append (List.nodup_singleton k) (List.disjoint_singleton.mpr hk)

/-- The decorator loop keeps the config-map keys distinct, whatever the
accumulator. -/
theorem processDecorators_foldl_nodup (env : Env) (cls : ClassDecl)
    (ds : List DecoratorInfo) (acc : List String × List (String × Expr))
    (h : (acc.2.map Prod.fst).Nodup) :
    (((ds.foldl (fun acc dec =>
        (acc.1 ++ [dec.declUid], mapSet acc.2 dec.declUid (decoratorConfig env cls dec)))
      acc)).2.map Prod.fst).Nodup := by
  induction ds generalizing acc with
  | nil => exact h
  | cons d rest ih => exact ih _ (mapSet_keys_nodup _ _ _ h)

/-- The decorator-config map has pairwise distinct UID keys. -/
theorem processDecorators_keys_nodup (env : Env) (cls : ClassDecl)
    (ds : List DecoratorInfo) :
    (((processDecorators env cls ds).2).map Prod.fst).Nodup :=
  processDecorators_foldl_nodup env cls ds ([], []) (by simp)

/-- The dependency-record block is empty or a single non-empty
dependencies record. -/
theorem dependencyFields_shape (cls : ClassDecl) (depF : List (String × Expr))
    (h : dependencyFields cls = .ok depF) :
    depF = [] ∨
      ∃ deps : List String, depF = [("flamework:dependencies", Expr.strs deps)] ∧ deps ≠ [] := by
  rw [dependencyFields] at h
  split at h
  · cases h
    exact Or.inl rfl
  · rename_i c hc
    split at h
    · exact absurd h (by simp)
    · rename_i deps hdeps
      cases h
      by_cases hl : c.params.length > 0
      · refine Or.inr ⟨deps, by simp [hl], ?_⟩
        have hlen := collectDependencies_length c.params deps hdeps
        intro hnil
        rw [hnil] at hlen
        simp at hlen
        omega
      · exact Or.inl (by simp [hl])

/-- The implements-record block is empty or a single non-empty implements
record. -/
theorem implementsFields_shape (env : Env) (cls : ClassDecl) (ci : ClassInfo)
    (implF : List (String × Expr)) (h : implementsFields env cls ci = .ok implF) :
    implF = [] ∨
      ∃ l : List String, implF = [("flamework:implements", Expr.strs l)] ∧ l ≠ [] := by
  rw [implementsFields] at h
  split at h
  · cases h
    exact Or.inl rfl
  · split at h
    · exact absurd h (by simp)
    · rename_i impls himpls
      cases h
      by_cases hl : impls.length > 0
      · refine Or.inr ⟨impls, by simp [hl], ?_⟩
        intro hnil
        rw [hnil] at hl
        simp at hl
      · exact Or.inl (by simp [hl])

/-- A distinct fixed key prefix followed by per-decorator keys over a
distinct UID list is distinct. -/
theorem nodup_fixed_append_cfgKeys (fixed : List String) (cfgs : List (String × Expr))
    (hf : fixed.Nodup) (hids : (cfgs.map Prod.fst).Nodup)
    (hne : ∀ k ∈ fixed, ∀ id, decKey id ≠ k) :
    (fixed ++ cfgs.map (fun p => decKey p.1)).Nodup := by
  have hrw : cfgs.map (fun p => decKey p.1) = (cfgs.map Prod.fst).map decKey := by
    rw [List.map_map]
    rfl
  rw [hrw]
  refine hf.append (hids.map decKey_injective) ?_
  intro a ha hb
  rcases List.mem_map.mp hb with ⟨id, _, hid⟩
  exact hne a ha id hid

/-- Claim C9 helper: the key list a successful `assembleFields` run
produces is duplicate free. -/
theorem assembleFields_keys_nodup (env : Env) (cls : ClassDecl) (ci : ClassInfo)
    (fields : List (String × Expr)) (h : assembleFields env cls ci = .ok fields) :
    (fields.map Prod.fst).Nodup := by
  rw [assembleFields] at h
  split at h
  · exact absurd h (by simp)
  · rename_i depF hdep
    split at h
    · exact absurd h (by simp)
    · rename_i implF himpl
      rw [Except.ok.injEq] at h
      rw [← h]
      have hcfg := processDecorators_keys_nodup env cls
        (ci.decorators.filter (fun d => d.isWithNodes))
      rcases dependencyFields_shape cls depF hdep with hdE | ⟨deps, hdEq, _⟩ <;>
        rcases implementsFields_shape env cls ci implF himpl with hiE | ⟨li, hiEq, _⟩
      · subst hdE
        subst hiE
        simp only [List.append_nil, List.nil_append, List.map_append, List.map_cons,
          List.map_nil, List.map_map]
        exact nodup_fixed_append_cfgKeys
          ["identifier", "flamework:isExternal", "flamework:decorators"] _
          (by decide) hcfg
          (by
            intro k hk id
            simp only [List.mem_cons, List.not_mem_nil, or_false] at hk
            rcases hk with rfl | rfl | rfl
            · exact decKey_ne_identifier id
            · exact decKey_ne_isExternal id
            · exact decKey_ne_decorators id)
      · subst hdE
        subst hiEq
        simp only [List.append_nil, List.nil_append, List.map_append, List.map_cons,
          List.map_nil, List.map_map]
        exact nodup_fixed_append_cfgKeys
          ["identifier", "flamework:isExternal", "flamework:implements",
           "flamework:decorators"] _
          (by decide) hcfg
          (by
            intro k hk id
            simp only [List.mem_cons, List.not_mem_nil, or_false] at hk
            rcases hk with rfl | rfl | rfl | rfl
            · exact decKey_ne_identifier id
            · exact decKey_ne_isExternal id
            · exact decKey_ne_implements id
            · exact decKey_ne_decorators id)
      · subst hdEq
        subst hiE
        simp only [List.append_nil, List.nil_append, List.map_append, List.map_cons,
          List.map_nil, List.map_map]
        exact nodup_fixed_append_cfgKeys
          ["identifier", "flamework:isExternal", "flamework:dependencies",
           "flamework:decorators"] _
          (by decide) hcfg
          (by
            intro k hk id
            simp only [List.mem_cons, List.not_mem_nil, or_false] at hk
            rcases hk with rfl | rfl | rfl | rfl
            · exact decKey_ne_identifier id
            · exact decKey_ne_isExternal id
            · exact decKey_ne_dependencies id
            · exact decKey_ne_decorators id)
      · subst hdEq
        subst hiEq
        simp only [List.append_nil, List.nil_append, List.map_append, List.map_cons,
          List.map_nil, List.map_map]
        exact nodup_fixed_append_cfgKeys
          ["identifier", "flamework:isExternal", "flamework:dependencies",
           "flamework:implements", "flamework:decorators"] _
          (by decide) hcfg
          (by
            intro k hk id
            simp only [List.mem_cons, List.not_mem_nil, or_false] at hk
            rcases hk with rfl | rfl | rfl | rfl | rfl
            · exact decKey_ne_identifier id
            · exact decKey_ne_isExternal id
            · exact decKey_ne_dependencies id
            · exact decKey_ne_implements id
            · exact decKey_ne_decorators id)

/-- Claim C9: the metadata record set a processed class emits has no
duplicate keys — each fixed record appears at most once and each
per-decorator config key at most once, even when the same annotation
declaration is applied repeatedly. -/
theorem transformClassDeclaration_keys_nodup (env : Env) (cls : ClassDecl)
    (ciOpt : Option ClassInfo) (ms : List ClassElement)
    (fields : List (String × Expr))
    (h : transformClassDeclaration env cls ciOpt = .ok (some (ms, fields))) :
    (fields.map Prod.fst).Nodup := by
  rw [transformClassDeclaration.eq_def] at h
  split at h
  · exact absurd h (by simp)
  · split at h
    · exact absurd h (by simp)
    · split at h
      · exact absurd h (by simp)
      · rename_i classInfo
        cases hA : assembleFields env cls classInfo with
        | error e =>
          rw [hA] at h
          simp at h
        | ok fieldsA =>
          rw [hA] at h
          cases hU : updateClass env cls
              (classInfo.decorators.filter (fun d => d.isWithNodes)) with
          | error e =>
            rw [hU] at h
            simp at h
          | ok msU =>
            rw [hU] at h
            simp only [Except.ok.injEq, Option.some.injEq, Prod.mk.injEq] at h
            rcases h with ⟨_, hf⟩
            rw [← hf]
            exact assembleFields_keys_nodup env cls classInfo fieldsA hA

/-- Witness for the C9 theorem: the key set of a concrete run carrying
all five record kinds is duplicate free. -/
theorem transformClassDeclaration_keys_nodup_witness :
    (([("identifier", Expr.str "uid:Class"),
       ("flamework:isExternal", Expr.boolE false),
       ("flamework:dependencies", Expr.strs ["uid:Dep1", "uid:Dep2"]),
       ("flamework:implements", Expr.strs ["uid:IFace"]),
       ("flamework:decorators", Expr.strs ["uid:Service"]),
       (decKey "uid:Service", Expr.obj [("type", Expr.str "Service")])] :
      List (String × Expr)).map Prod.fst).Nodup :=
  transformClassDeclaration_keys_nodup defaultEnv orderedHeritageClass (some serviceInfo)
    orderedHeritageClass.members
    [("identifier", Expr.str "uid:Class"),
     ("flamework:isExternal", Expr.boolE false),
     ("flamework:dependencies", Expr.strs ["uid:Dep1", "uid:Dep2"]),
     ("flamework:implements", Expr.strs ["uid:IFace"]),
     ("flamework:decorators", Expr.strs ["uid:Service"]),
     (decKey "uid:Service", Expr.obj [("type", Expr.str "Service")])]
    rfl

/-- Pairs with provably different first components differ. -/
theorem pair_fst_ne {α : Type} {k₁ k₂ : String} {v₁ v₂ : α} (h : k₁ ≠ k₂) :
    (k₁, v₁) ≠ (k₂, v₂) :=
  fun he => h (congrArg Prod.fst he)

/-- Membership with a key distinct from the fixed keys and from every
per-decorator key must come from the dependency or implements block. -/
theorem mem_meta_key (k : String) (v idv extv : Expr) (ids : List String)
    (depF implF cfgs : List (String × Expr))
    (hv : (k, v) ∈ [("identifier", idv), ("flamework:isExternal", extv)] ++ depF ++ implF ++
      [("flamework:decorators", Expr.strs ids)] ++ cfgs.map (fun p => (decKey p.1, p.2)))
    (hk1 : k ≠ "identifier") (hk2 : k ≠ "flamework:isExternal")
    (hk3 : k ≠ "flamework:decorators") (hk4 : ∀ id, decKey id ≠ k) :
    (k, v) ∈ depF ∨ (k, v) ∈ implF := by
  simp only [List.mem_append, List.mem_cons, List.not_mem_nil, or_false] at hv
  rcases hv with ((((h | h) | h) | h) | h) | h
  · exact absurd h (pair_fst_ne hk1)
  · exact absurd h (pair_fst_ne hk2)
  · exact Or.inl h
  · exact Or.inr h
  · exact absurd h (pair_fst_ne hk3)
  · rcases List.mem_map.mp h with ⟨q, _, hq⟩
    exact absurd (congrArg Prod.fst hq) (hk4 q.1)

/-- Claim C10: a processed class always emits the decorators-list record
(with the—possibly empty—WithNodes decorator UID list), while the
dependencies and implements records carry non-empty lists whenever they
are present at all. -/
theorem transformClassDeclaration_record_presence (env : Env) (cls : ClassDecl)
    (ci : ClassInfo) (ms : List ClassElement) (fields : List (String × Expr))
    (h : transformClassDeclaration env cls (some ci) = .ok (some (ms, fields))) :
    ("flamework:decorators",
      Expr.strs (processDecorators env cls
        (ci.decorators.filter (fun d => d.isWithNodes))).1) ∈ fields ∧
    (∀ v, ("flamework:dependencies", v) ∈ fields →
      ∃ l : List String, v = Expr.strs l ∧ l ≠ []) ∧
    (∀ v, ("flamework:implements", v) ∈ fields →
      ∃ l : List String, v = Expr.strs l ∧ l ≠ []) := by
  rw [transformClassDeclaration.eq_def] at h
  split at h
  · exact absurd h (by simp)
  · split at h
    · exact absurd h (by simp)
    · dsimp only at h
      cases hA : assembleFields env cls ci with
      | error e =>
        rw [hA] at h
        simp at h
      | ok fieldsA =>
        rw [hA] at h
        cases hU : updateClass env cls (ci.decorators.filter (fun d => d.isWithNodes)) with
        | error e =>
          rw [hU] at h
          simp at h
        | ok msU =>
          rw [hU] at h
          simp only [Except.ok.injEq, Option.some.injEq, Prod.mk.injEq] at h
          rcases h with ⟨_, hf⟩
          rw [assembleFields] at hA
          split at hA
          · exact absurd hA (by simp)
          · rename_i depF hdep
            split at hA
            · exact absurd hA (by simp)
            · rename_i implF himpl
              rw [Except.ok.injEq] at hA
              rw [← hf, ← hA]
              refine ⟨by simp [List.mem_append], ?_, ?_⟩
              · intro v hv
                have hm := mem_meta_key "flamework:dependencies" v _ _ _ depF implF _ hv
                  (by decide) (by decide) (by decide) decKey_ne_dependencies
                rcases dependencyFields_shape cls depF hdep with hdE | ⟨deps, hdEq, hdne⟩
                · subst hdE
                  rcases hm with hm | hm
                  · exact absurd hm (List.not_mem_nil _)
                  · rcases implementsFields_shape env cls ci implF himpl with
                      hiE | ⟨li, hiEq, _⟩
                    · subst hiE
                      exact absurd hm (List.not_mem_nil _)
                    · subst hiEq
                      simp only [List.mem_singleton] at hm
                      exact absurd hm (pair_fst_ne (by decide))
                · subst hdEq
                  rcases hm with hm | hm
                  · simp only [List.mem_singleton] at hm
                    exact ⟨deps, congrArg Prod.snd hm, hdne⟩
                  · rcases implementsFields_shape env cls ci implF himpl with
                      hiE | ⟨li, hiEq, _⟩
                    · subst hiE
                      exact absurd hm (List.not_mem_nil _)
                    · subst hiEq
                      simp only [List.mem_singleton] at hm
                      exact absurd hm (pair_fst_ne (by decide))
              · intro v hv
                have hm := mem_meta_key "flamework:implements" v _ _ _ depF implF _ hv
                  (by decide) (by decide) (by decide) decKey_ne_implements
                rcases implementsFields_shape env cls ci implF himpl with
                  hiE | ⟨li, hiEq, hine⟩
                · subst hiE
                  rcases hm with hm | hm
                  · rcases dependencyFields_shape cls depF hdep with hdE | ⟨deps, hdEq, _⟩
                    · subst hdE
                      exact absurd hm (List.not_mem_nil _)
                    · subst hdEq
                      simp only [List.mem_singleton] at hm
                      exact absurd hm (pair_fst_ne (by decide))
                  · exact absurd hm (List.not_mem_nil _)
                · subst hiEq
                  rcases hm with hm | hm
                  · rcases dependencyFields_shape cls depF hdep with hdE | ⟨deps, hdEq, _⟩
                    · subst hdE
                      exact absurd hm (List.not_mem_nil _)
                    · subst hdEq
                      simp only [List.mem_singleton] at hm
                      exact absurd hm (pair_fst_ne (by decide))
                  · simp only [List.mem_singleton] at hm
                    exact ⟨li, congrArg Prod.snd hm, hine⟩

/-- Witness for the C10 theorem: a class with no annotations at all still
emits the decorators-list record, with an empty list. -/
theorem transformClassDeclaration_record_presence_witness :
    ("flamework:decorators", Expr.strs []) ∈
      [("identifier", Expr.str "uid:Class"),
       ("flamework:isExternal", Expr.boolE false),
       ("flamework:decorators", Expr.strs [])] := by
  have h := (transformClassDeclaration_record_presence defaultEnv baseClass emptyInfo
    []
    [("identifier", Expr.str "uid:Class"),
     ("flamework:isExternal", Expr.boolE false),
     ("flamework:decorators", Expr.strs [])]
    rfl).1
  exact h

end FlameworkTransform
